import Mathlib

/-!
Verification of the AutoIndex single-page renderer (`app.js`).

The development shallowly embeds the `AutoIndex` controller: the URL parser
(`parseURL`), the placeholder substitution (`replaceQueryPlaceholder`), the
two screen renderers (`renderButtonsPage`, `renderImagePage`), the error view
(`renderError`), the font resolution (`getFontUrl`, `ensureFont`), the
scroll coalescing logic of `setupImageScrollBehavior`, and the `init`
pipeline with its try/catch.

Modelling conventions, stated once:
* JS strings are Lean `String` (a list of characters); UTF-16 code-unit
  subtleties do not arise in the claims.
* A JS value that may be `undefined` is an `Option`.  JS truthiness on
  strings (`""` is falsy, every other string truthy) is the `truthy`
  predicate; `a || b` is `jsOrStr`, `a ?? b` is `jsNullish`.
* `url.replace(new RegExp('\\{' + key + '\\}', 'g'), value)` builds a regex
  from the raw, unescaped key and replaces with a raw string.  The model
  (`jsReplace`) implements the JS global replace scan — the pattern's
  alternatives tried in order at each position, continuing after a match,
  never rescanning replaced text — together with the `$`-substitution
  patterns of `String.prototype.replace` (`$$`, `$&`, and the
  before-match/after-match patterns).  Key-built patterns are covered
  exactly on the fragment `keyModelled` (regex-literal characters plus
  top-level alternation bars); a pair whose key falls outside it is skipped
  by the model — its behaviour (quantifiers, wildcards, or a thrown
  `SyntaxError`) is not modelled, and every substitution theorem excludes
  such keys by hypothesis.
* Code paths that throw in JS (property access on `undefined`) return
  `Except.error JsError.typeError`; DOM writes are returned as structured
  view values.
-/

/-- JS string truthiness for an optional string: `undefined` and `""` are
falsy, every other string is truthy. -/
def truthy : Option String → Bool
  | none => false
  | some s => s ≠ ""

/-- JS `a || b` on optional strings: returns `a` when it is truthy,
otherwise `b`. -/
def jsOrStr (a b : Option String) : Option String :=
  if truthy a then a else b

/-- JS `a ?? b` (nullish coalescing): returns `a` unless it is
`undefined`. -/
def jsNullish (a b : Option String) : Option String :=
  match a with
  | none => b
  | some s => some s

/-- JS template-literal interpolation of a possibly-`undefined` string:
`undefined` prints as `"undefined"`. -/
def jsStr : Option String → String
  | none => "undefined"
  | some s => s

/-- Errors a modelled code path can throw: property access on `undefined`
raises a `TypeError` in JS. -/
inductive JsError where
  | typeError
deriving DecidableEq

/-- First alternative of the pattern that matches at the head of the
subject, tried in alternation order, as the JS regex engine does. -/
def firstAlt : List (List Char) → List Char → Option (List Char)
  | [], _ => none
  | a :: as, s => if a.isPrefixOf s then some a else firstAlt as s

/-- JS `String.prototype.replace` substitution patterns in a string
replacement: `$$` is a literal dollar, `$&` the matched text, a dollar
followed by a backtick the part of the subject before the match, a dollar
followed by an apostrophe the part after it; any other text is literal
(the patterns built here have no capture groups, so digit references stay
literal, as in JS). -/
def expandRepl (matched before after : List Char) : List Char → List Char
  | [] => []
  | '$' :: '$' :: t => '$' :: expandRepl matched before after t
  | '$' :: '&' :: t => matched ++ expandRepl matched before after t
  | '$' :: c :: t =>
    if c = Char.ofNat 96 then before ++ expandRepl matched before after t
    else if c = Char.ofNat 39 then after ++ expandRepl matched before after t
    else '$' :: c :: expandRepl matched before after t
  | c :: t => c :: expandRepl matched before after t

/-- The global-replace scan: at each position of the remaining subject, try
the pattern's alternatives in order; on a match emit the `$`-expanded
replacement and continue after the matched text (replaced text is never
rescanned).  The `done` accumulator holds the consumed subject reversed,
giving each match its before/after context in the original subject.  The
fuel only makes the recursion structural; callers supply more fuel than the
subject has characters, and every alternative built from a modelled key is
nonempty, so the zero-fuel branch is never reached. -/
def replScan (alts : List (List Char)) (repl : List Char) :
    Nat → List Char → List Char → List Char
  | 0, _, s => s
  | _ + 1, _, [] => []
  | fuel + 1, done, c :: rest =>
    match firstAlt alts (c :: rest) with
    | some alt =>
      expandRepl alt done.reverse ((c :: rest).drop alt.length) repl ++
        replScan alts repl fuel (alt.reverse ++ done) ((c :: rest).drop alt.length)
    | none => c :: replScan alts repl fuel (c :: done) rest

/-- Global regex replace over a string, for a pattern given by its list of
literal alternatives. -/
def jsReplace (s : String) (alts : List (List Char)) (repl : String) : String :=
  String.mk (replScan alts repl.data (s.data.length + 1) [] s.data)

/-- Whether the pattern occurs as a contiguous substring of the subject. -/
def occursL (pat : List Char) : List Char → Bool
  | [] => pat.isEmpty
  | c :: rest => pat.isPrefixOf (c :: rest) || occursL pat rest

/-- Whether some alternative of the pattern matches at some position of the
subject. -/
def hasMatch (alts : List (List Char)) : List Char → Bool
  | [] => (firstAlt alts []).isSome
  | c :: rest => (firstAlt alts (c :: rest)).isSome || hasMatch alts rest

/-- If no alternative matches anywhere, the scan returns the subject. -/
theorem replScan_no_match (alts : List (List Char)) (repl : List Char) :
    ∀ (s : List Char) (fuel : Nat) (done : List Char),
      hasMatch alts s = false → s.length < fuel →
      replScan alts repl fuel done s = s := by
  intro s
  induction s with
  | nil =>
    intro fuel done _ hf
    match fuel with
    | 0 => omega
    | g + 1 => rfl
  | cons c rest ih =>
    intro fuel done h hf
    match fuel with
    | 0 => omega
    | g + 1 =>
      rw [hasMatch, Bool.or_eq_false_iff] at h
      obtain ⟨h1, h2⟩ := h
      cases hfa : firstAlt alts (c :: rest) with
      | none =>
        simp only [replScan, hfa]
        rw [ih g (c :: done) h2 (by simp only [List.length_cons] at hf; omega)]
      | some a =>
        rw [hfa] at h1
        cases h1
/-- String version of `replScan_no_match`. -/
theorem jsReplace_no_match (s : String) (alts : List (List Char))
    (repl : String) (h : hasMatch alts s.data = false) :
    jsReplace s alts repl = s := by
  unfold jsReplace
  rw [replScan_no_match alts repl.data s.data (s.data.length + 1) [] h
    (by omega)]

/-- A single-alternative pattern matches at the head iff the alternative is
a prefix. -/
theorem firstAlt_singleton_isSome (a s : List Char) :
    (firstAlt [a] s).isSome = a.isPrefixOf s := by
  show (if a.isPrefixOf s then some a else none).isSome = a.isPrefixOf s
  cases h : a.isPrefixOf s
  · rw [if_neg (by decide)]
    rfl
  · rw [if_pos (by decide)]
    rfl

/-- For a single-alternative pattern, having a match anywhere is substring
occurrence. -/
theorem hasMatch_singleton (a : List Char) :
    ∀ s : List Char, hasMatch [a] s = occursL a s := by
  intro s
  induction s with
  | nil =>
    show (firstAlt [a] []).isSome = a.isEmpty
    rw [firstAlt_singleton_isSome]
    cases a
    · rfl
    · rfl
  | cons c rest ih =>
    rw [hasMatch, occursL, ih, firstAlt_singleton_isSome]

/-- Hexadecimal digit test, as in URL percent-decoding. -/
def isHexDigit (c : Char) : Bool :=
  (c.toNat ≥ 48 && c.toNat ≤ 57) ||
  (c.toNat ≥ 65 && c.toNat ≤ 70) ||
  (c.toNat ≥ 97 && c.toNat ≤ 102)

/-- Numeric value of a hexadecimal digit. -/
def hexVal (c : Char) : Nat :=
  if c.toNat ≤ 57 then c.toNat - 48
  else if c.toNat ≤ 70 then c.toNat - 55
  else c.toNat - 87

/-- `application/x-www-form-urlencoded` decoding of one query component, as
`URLSearchParams` performs it: `+` becomes a space and `%XX` with two hex
digits becomes the character with that code (multi-byte UTF-8 percent
sequences are idealised to one character per byte); a `%` not followed by
two hex digits is kept literally. -/
def decodeComp : List Char → List Char
  | [] => []
  | '+' :: rest => ' ' :: decodeComp rest
  | '%' :: a :: b :: rest =>
    if isHexDigit a && isHexDigit b then
      Char.ofNat (16 * hexVal a + hexVal b) :: decodeComp rest
    else
      '%' :: decodeComp (a :: b :: rest)
  | c :: rest => c :: decodeComp rest

/-- Split a character list on a separator character; adjoining separators
produce empty groups, as JS `String.prototype.split` does. -/
def splitOnChar (sep : Char) : List Char → List (List Char)
  | [] => [[]]
  | c :: rest =>
    match splitOnChar sep rest with
    | [] => [[c]]
    | g :: gs => if c = sep then [] :: g :: gs else (c :: g) :: gs

/-- The name/value pairs of `new URLSearchParams(queryString)`, in order of
occurrence in the query string (duplicated names keep every pair): one
leading `?` is stripped, the string is split on `&`, empty segments are
skipped, each segment is split at its first `=` (a segment without `=` has
value `""`), and both sides are form-urlencoded-decoded. -/
def parseParams (qs : String) : List (String × String) :=
  let l := qs.data
  let l := match l with
    | '?' :: rest => rest
    | other => other
  ((splitOnChar '&' l).filter (· ≠ [])).map fun seg =>
    (String.mk (decodeComp (seg.takeWhile (· ≠ '='))),
     String.mk (decodeComp ((seg.dropWhile (· ≠ '=')).drop 1)))

/-- Characters the JS regex engine treats as themselves (no
metacharacter). -/
def isRegexLiteralChar (c : Char) : Bool :=
  !(c == '\\' || c == '^' || c == '$' || c == '.' || c == '|' ||
    c == '?' || c == '*' || c == '+' || c == '(' || c == ')' ||
    c == '[' || c == ']' || c == '{' || c == '}')

/-- A key all of whose characters are regex-literal:
`new RegExp('\\{' + k + '\\}', 'g')` then matches exactly the literal
text `{k}`. -/
def keyLiteral (k : String) : Bool :=
  k.data.all isRegexLiteralChar

/-- The modelled key fragment: regex-literal characters plus top-level
alternation bars, with no empty interior alternative.  For such a key the
built pattern is a valid regex whose alternatives are exactly the literal
texts `patternAlts` produces.  Keys outside this fragment (raw `(`, `*`,
`.`, …) make the source throw a `SyntaxError` or match with
quantifier/wildcard semantics; the model does not cover them. -/
def keyModelled (k : String) : Bool :=
  k.data.all (fun c => isRegexLiteralChar c || c == '|') &&
  (((splitOnChar '|' k.data).drop 1).dropLast.all (· ≠ []))

/-- Attach the closing `}` of the built pattern to its last alternative. -/
def attachClose : List (List Char) → List (List Char)
  | [] => []
  | [p] => [p ++ ['}']]
  | p :: q :: ps => p :: attachClose (q :: ps)

/-- The literal alternatives of the regex built from a key: the pattern
text `\{k\}` splits at the key's top-level bars, the first piece keeping
the leading `{` and the last the trailing `}` (a bar-free key gives the
single literal `{k}`). -/
def patternAlts (k : String) : List (List Char) :=
  match splitOnChar '|' k.data with
  | [] => []
  | p :: ps => attachClose (('{' :: p) :: ps)

/-- Fold of the `params.forEach` loop of `replaceQueryPlaceholder`: for
each name/value pair in order,
`result.replace(new RegExp('\\{' + key + '\\}', 'g'), value)` — modelled
by `jsReplace` on the pattern's literal alternatives for keys inside the
modelled fragment; a pair whose key falls outside the fragment is skipped
(no theorem covers such inputs). -/
def substPairs (pairs : List (String × String)) (s : String) : String :=
  pairs.foldl (fun acc kv =>
    if keyModelled kv.1 then jsReplace acc (patternAlts kv.1) kv.2 else acc) s

/-- `AutoIndex.replaceQueryPlaceholder`: replace every `{query}` match by
the raw query string — interpreting the `$`-substitution patterns in it, as
`String.prototype.replace` does — then, when the query string is truthy,
substitute each `URLSearchParams` pair in order of occurrence. -/
def replaceQueryPlaceholder (url queryString : String) : String :=
  let result := jsReplace url (patternAlts "query") queryString
  if queryString = "" then result
  else substPairs (parseParams queryString) result

/-- The navigation state produced by `AutoIndex.parseURL`: page identifier
(`null` for "no page"), optional image index, and the raw query string. -/
structure NavState where
  pagePath : Option String
  imageIndex : Option Nat
  queryString : String
deriving DecidableEq

/-- The literal `/image/` infix of the second path form, as characters. -/
def imageSep : List Char := "/image/".data

/-- The path match of `parseURL`, the regular expression
`^\/([^\/]+)(?:\/image\/(\d+))?$`: a leading slash, a nonempty slash-free
segment, then optionally `/image/` followed by one or more decimal digits up
to the end.  Returns the segment and, for the second form, the digit text. -/
def matchPath : List Char → Option (List Char × Option (List Char))
  | [] => none
  | c :: rest =>
    if c = '/' then
      let seg := rest.takeWhile (· ≠ '/')
      let rem := rest.dropWhile (· ≠ '/')
      if seg.isEmpty then none
      else if rem.isEmpty then some (seg, none)
      else if rem.take 7 = imageSep ∧ rem.drop 7 ≠ [] ∧
          (rem.drop 7).all (fun d => d.isDigit) then
        some (seg, some (rem.drop 7))
      else none
    else none

/-- JS `parseInt` on a string of decimal digits: the base-10 value.  (The
precision loss of JS numbers above 2^53 is idealised away; such an index
never addresses an existing button.) -/
def jsParseIntDigits (ds : List Char) : Nat :=
  ds.foldl (fun acc c => 10 * acc + (c.toNat - 48)) 0

/-- `AutoIndex.parseURL`, over the location's `pathname` and `search`
components: the query string is `search.slice(1)` (the leading `?` removed,
the empty string when there is no query); the page path is the matched
segment unless there is no match or the segment is literally `index.html`;
the image index is the parsed digit group when present. -/
def parseURL (pathname search : String) : NavState :=
  let queryString := String.mk (search.data.drop 1)
  match matchPath pathname.data with
  | none => ⟨none, none, queryString⟩
  | some (seg, idx) =>
    if String.mk seg = "index.html" then ⟨none, none, queryString⟩
    else ⟨some (String.mk seg), idx.map jsParseIntDigits, queryString⟩

/-- One entry of `config.buttons`; every JSON field may be absent. -/
structure ButtonConfig where
  text : Option String := none
  subtitle : Option String := none
  icon : Option String := none
  image : Option String := none
  link : Option String := none
  linkText : Option String := none
  backgroundColor : Option String := none
  textColor : Option String := none
deriving DecidableEq

/-- A parsed `config.json` document; every field may be absent, including
`buttons` (an absent `buttons` is `undefined` in JS). -/
structure PageConfig where
  title : Option String := none
  description : Option String := none
  background : Option String := none
  logo : Option String := none
  fontFamily : Option String := none
  fontUrl : Option String := none
  backgroundColor : Option String := none
  pageBackgroundColor : Option String := none
  buttonBackgroundColor : Option String := none
  buttonTextColor : Option String := none
  pageButtonBackgroundColor : Option String := none
  pageButtonTextColor : Option String := none
  imageBackgroundColor : Option String := none
  imageButtonBackgroundColor : Option String := none
  imageButtonTextColor : Option String := none
  buttons : Option (List ButtonConfig) := none
deriving DecidableEq

/-- A single-quote character, used inside generated `url(...)` CSS text. -/
def sqChar : String := String.mk [Char.ofNat 39]

/-- Join nonempty parts with a separator, as JS `Array.prototype.join`. -/
def joinParts (sep : String) : List String → String
  | [] => ""
  | [x] => x
  | x :: y :: xs => x ++ sep ++ joinParts sep (y :: xs)

/-- `AutoIndex.getResourcePath`: a falsy resource yields `null`; a resource
beginning with `http` is used verbatim; anything else is resolved under
`{basePath}/{pagePath}/` with `basePath = "/pages"`. -/
def getResourcePath (pagePath : String) (resource : Option String) : Option String :=
  match resource with
  | none => none
  | some r =>
    if r = "" then none
    else if "http".data.isPrefixOf r.data then some r
    else some ("/pages/" ++ pagePath ++ "/" ++ r)

/-- `AutoIndex.buildStyleVars`: emit a ` style="..."` attribute setting the
`--btn-bg` / `--btn-text` variables for each truthy color, and the empty
string when neither color is truthy (no inline override at all). -/
def buildStyleVars (backgroundColor textColor : Option String) : String :=
  let styleParts : List String :=
    (if truthy backgroundColor then ["--btn-bg: " ++ jsStr backgroundColor] else []) ++
    (if truthy textColor then ["--btn-text: " ++ jsStr textColor] else [])
  if styleParts.isEmpty then ""
  else " style=\"" ++ joinParts "; " styleParts ++ "\""

/-- The rendered content of one button card on the list screen. -/
structure ListButtonView where
  index : Nat
  icon : Option String
  text : String
  subtitle : Option String
  styleAttr : String
deriving DecidableEq

/-- The rendered list screen. -/
structure ListView where
  containerStyle : String
  logo : Option String
  title : String
  description : Option String
  buttons : List ListButtonView
deriving DecidableEq

/-- The rendered image/detail screen. -/
structure ImageView where
  pageStyle : String
  backUrl : String
  imageUrl : Option String
  imageAlt : String
  finalLink : String
  icon : Option String
  label : String
  styleAttr : String
deriving DecidableEq

/-- What a render pass leaves in `#app`: the full-screen error template or
one of the two screens. -/
inductive View where
  | error (title message : String)
  | listV (v : ListView)
  | imageV (v : ImageView)
deriving DecidableEq

/-- `AutoIndex.renderError`: the full-screen error template with the given
title and message. -/
def renderError (title message : String) : View :=
  View.error title message

/-- The body of the `config.buttons.map((btn, idx) => ...)` loop of
`renderButtonsPage`: each card resolves its colors with
`btn.backgroundColor ?? pageButtonBackgroundColor` and
`btn.textColor ?? pageButtonTextColor`. -/
def renderListButtons (surfaceBg surfaceText : Option String) :
    List ButtonConfig → Nat → List ListButtonView
  | [], _ => []
  | btn :: rest, idx =>
    { index := idx
      icon := if truthy btn.icon then some (jsStr btn.icon) else none
      text := jsStr btn.text
      subtitle := if truthy btn.subtitle then some (jsStr btn.subtitle) else none
      styleAttr := buildStyleVars (jsNullish btn.backgroundColor surfaceBg)
        (jsNullish btn.textColor surfaceText) } ::
    renderListButtons surfaceBg surfaceText rest (idx + 1)

/-- `AutoIndex.renderButtonsPage`.  Accessing `config.buttons.map` when
`buttons` is absent throws a `TypeError` in JS; otherwise the list screen is
produced, with the page-level colors resolved through `||` and the
per-button colors through `??`. -/
def renderButtonsPage (pagePath : String) (config : PageConfig)
    (_queryString : String) : Except JsError View :=
  match config.buttons with
  | none => Except.error JsError.typeError
  | some bs =>
    let backgroundUrl := getResourcePath pagePath config.background
    let logoUrl := getResourcePath pagePath config.logo
    let pageBackgroundColor := jsOrStr config.pageBackgroundColor config.backgroundColor
    let pageButtonBackgroundColor :=
      jsOrStr config.pageButtonBackgroundColor config.buttonBackgroundColor
    let pageButtonTextColor := jsOrStr config.pageButtonTextColor config.buttonTextColor
    let backgroundStyleParts : List String :=
      (if truthy backgroundUrl then
        ["background-image: url(" ++ sqChar ++ jsStr backgroundUrl ++ sqChar ++ ")"] else []) ++
      (if truthy pageBackgroundColor then
        ["background-color: " ++ jsStr pageBackgroundColor] else []) ++
      (if truthy config.fontFamily then
        ["font-family: " ++ jsStr config.fontFamily] else [])
    Except.ok (View.listV {
      containerStyle := joinParts "; " backgroundStyleParts
      logo := logoUrl
      title := if truthy config.title then jsStr config.title else pagePath
      description := if truthy config.description then some (jsStr config.description) else none
      buttons := renderListButtons pageButtonBackgroundColor pageButtonTextColor bs 0 })

/-- `AutoIndex.renderImagePage`.  Accessing `config.buttons[imageIndex]`
when `buttons` is absent throws a `TypeError`; an index with no button
renders the dedicated "image not found" error view; calling
`replaceQueryPlaceholder` on an absent `link` throws a `TypeError`;
otherwise the detail screen is produced. -/
def renderImagePage (pagePath : String) (config : PageConfig)
    (imageIndex : Nat) (queryString : String) : Except JsError View :=
  match config.buttons with
  | none => Except.error JsError.typeError
  | some bs =>
    match bs.get? imageIndex with
    | none =>
      Except.ok (renderError "图片不存在"
        ("找不到索引为 " ++ Nat.repr imageIndex ++ " 的按钮"))
    | some button =>
      match button.link with
      | none => Except.error JsError.typeError
      | some link =>
        let imageUrl := getResourcePath pagePath button.image
        let finalLink := replaceQueryPlaceholder link queryString
        let backUrl := "/" ++ pagePath ++
          (if queryString ≠ "" then "?" ++ queryString else "")
        let imageBackgroundColor :=
          jsOrStr config.imageBackgroundColor config.backgroundColor
        let imageButtonBackgroundColor :=
          jsOrStr config.imageButtonBackgroundColor config.buttonBackgroundColor
        let imageButtonTextColor :=
          jsOrStr config.imageButtonTextColor config.buttonTextColor
        let imagePageStyleParts : List String :=
          (if truthy imageBackgroundColor then
            ["background-color: " ++ jsStr imageBackgroundColor] else []) ++
          (if truthy config.fontFamily then
            ["font-family: " ++ jsStr config.fontFamily] else [])
        Except.ok (View.imageV {
          pageStyle := if imagePageStyleParts.isEmpty then ""
            else " style=\"" ++ joinParts "; " imagePageStyleParts ++ "\""
          backUrl := backUrl
          imageUrl := imageUrl
          imageAlt := jsStr button.text
          finalLink := finalLink
          icon := if truthy button.icon then some (jsStr button.icon) else none
          label := if truthy button.linkText then jsStr button.linkText
            else if truthy button.text then jsStr button.text
            else "前往链接"
          styleAttr := buildStyleVars
            (jsNullish button.backgroundColor imageButtonBackgroundColor)
            (jsNullish button.textColor imageButtonTextColor) })

deriving instance DecidableEq for Except

/-- Failure of `loadConfig`: a non-ok transport status or an unparsable
body; both reject the promise awaited in `init`. -/
inductive LoadError where
  | failed
deriving DecidableEq

/-- Dispatch of `init` after the config resolved: image screen when an
image index was parsed, list screen otherwise. -/
def renderRoute (pagePath : String) (config : PageConfig)
    (imageIndex : Option Nat) (queryString : String) : Except JsError View :=
  match imageIndex with
  | some i => renderImagePage pagePath config i queryString
  | none => renderButtonsPage pagePath config queryString

/-- `AutoIndex.init`: parse the location; with no page render the generic
404 view; otherwise await the config fetch and render the route, catching
every error of the fetch-and-render pipeline and substituting the
page-not-found view naming the page id. -/
def init (pathname search : String) (fetched : Except LoadError PageConfig) : View :=
  let nav := parseURL pathname search
  match nav.pagePath with
  | none => renderError "404" "页面不存在"
  | some pagePath =>
    match fetched with
    | Except.error _ => renderError "页面不存在" ("找不到页面: " ++ pagePath)
    | Except.ok config =>
      match renderRoute pagePath config nav.imageIndex nav.queryString with
      | Except.ok v => v
      | Except.error _ => renderError "页面不存在" ("找不到页面: " ++ pagePath)

/-- A configuration whose `buttons` field is absent. -/
def cfgNoButtons : PageConfig := { title := some "Demo" }

/-- Uppercase hexadecimal digit of a value below 16. -/
def hexDigitU (n : Nat) : Char :=
  if n < 10 then Char.ofNat (48 + n) else Char.ofNat (55 + n)

/-- UTF-8 byte sequence of one character, as `encodeURIComponent` encodes
non-ASCII characters. -/
def utf8Bytes (c : Char) : List Nat :=
  let n := c.toNat
  if n < 128 then [n]
  else if n < 2048 then [192 + n / 64, 128 + n % 64]
  else if n < 65536 then [224 + n / 4096, 128 + n / 64 % 64, 128 + n % 64]
  else [240 + n / 262144, 128 + n / 4096 % 64, 128 + n / 64 % 64, 128 + n % 64]

/-- Whether `encodeURIComponent` leaves the character unescaped: ASCII
letters, digits, and `- _ . ! ~ * ' ( )`. -/
def isUnreservedURI (c : Char) : Bool :=
  c.isAlpha || c.isDigit ||
  c = '-' || c = '_' || c = '.' || c = '!' || c = '~' || c = '*' ||
  c = Char.ofNat 39 || c = '(' || c = ')'

/-- JS `encodeURIComponent`: unreserved characters pass through, every other
character becomes the percent-encoded uppercase-hex UTF-8 bytes. -/
def encodeURIComponent (s : String) : String :=
  String.mk (s.data.foldr (fun c acc =>
    if isUnreservedURI c then c :: acc
    else (utf8Bytes c).foldr (fun b acc2 =>
      '%' :: hexDigitU (b / 16) :: hexDigitU (b % 16) :: acc2) acc) [])

/-- JS `String.prototype.trim` (whitespace at both ends removed). -/
def jsTrim (s : String) : String :=
  String.mk (((s.data.dropWhile Char.isWhitespace).reverse.dropWhile
    Char.isWhitespace).reverse)

/-- The first comma-separated group of a string, one step of
`fontFamily.split(',')[0]`. -/
def firstSplitComma (s : String) : String :=
  String.mk (s.data.takeWhile (· ≠ ','))

/-- `AutoIndex.getFontUrl`: a truthy `fontUrl` is used verbatim; otherwise a
truthy `fontFamily` yields the Google Fonts stylesheet URL for its first
comma-separated family name, trimmed and percent-encoded, at weights
400/500/600/700; otherwise (or when the trimmed first family name is empty)
no font URL. -/
def getFontUrl (config : PageConfig) : Option String :=
  if truthy config.fontUrl then config.fontUrl
  else if ¬ truthy config.fontFamily then none
  else
    let familyName := jsTrim (firstSplitComma (jsStr config.fontFamily))
    if familyName = "" then none
    else some ("https://fonts.googleapis.com/css2?family=" ++
      encodeURIComponent familyName ++ ":wght@400;500;600;700&display=swap")

/-- `AutoIndex.ensureFont`, acting on the document-head state: the list of
`href`s of `link[data-custom-font]` elements, in document order.  With no
resolved font URL the head is untouched; with no existing link a fresh one
is appended and its `href` set; otherwise the first existing link's `href`
is overwritten only when it differs. -/
def ensureFont (config : PageConfig) (links : List String) : List String :=
  match getFontUrl config with
  | none => links
  | some fontUrl =>
    match links with
    | [] => [fontUrl]
    | href :: rest => if href ≠ fontUrl then fontUrl :: rest else href :: rest

/-- The mutable state of `setupImageScrollBehavior`'s coalescing closure:
the `ticking` flag and the number of `updateState` callbacks currently
queued via `requestAnimationFrame`. -/
structure ScrollState where
  ticking : Bool
  pending : Nat
deriving DecidableEq

/-- Events the coalescing logic reacts to: a raw `scroll` or `resize` event
(running the `onScroll` handler), and an animation frame executing one
queued `updateState` callback. -/
inductive ScrollEv where
  | raw
  | frame
deriving DecidableEq

/-- One transition of the coalescing logic.  `onScroll` returns immediately
when `ticking` is set, else sets it and queues `updateState`; a frame runs
one queued `updateState`, which clears `ticking` as its last step. -/
def scrollStep (s : ScrollState) : ScrollEv → ScrollState
  | ScrollEv.raw =>
    if s.ticking then s
    else { ticking := true, pending := s.pending + 1 }
  | ScrollEv.frame =>
    match s.pending with
    | 0 => s
    | n + 1 => { ticking := false, pending := n }

/-- The state after the page's listeners were installed (nothing queued). -/
def scrollInit : ScrollState := ⟨false, 0⟩

/-- Run a sequence of events from a state. -/
def runScroll (s : ScrollState) (evs : List ScrollEv) : ScrollState :=
  evs.foldl scrollStep s

/-- Whether the text contains a brace-delimited token: a `{` with some `}`
after it (every placeholder pattern `{name}` is such a token). -/
def hasBraceTok : List Char → Bool
  | [] => false
  | c :: rest => (c == '{' && rest.any (· == '}')) || hasBraceTok rest

/-- Membership transfers along a boolean prefix test. -/
theorem mem_of_isPrefixOf {a : Char} :
    ∀ (l r : List Char), a ∈ l → l.isPrefixOf r = true → a ∈ r := by
  intro l
  induction l with
  | nil => intro r h _; cases h
  | cons x xs ih =>
    intro r h hp
    cases r with
    | nil => cases hp
    | cons y ys =>
      rw [List.isPrefixOf_cons₂, Bool.and_eq_true] at hp
      have hxy : x = y := eq_of_beq hp.1
      cases h with
      | head => exact hxy ▸ List.mem_cons_self _ _
      | tail _ hmem => exact List.mem_cons_of_mem y (ih ys hmem hp.2)

/-- A text with no brace-delimited token contains no occurrence of a
pattern of the shape `{` … `}`. -/
theorem no_occur_of_no_braceTok (mid : List Char) :
    ∀ s : List Char, hasBraceTok s = false →
      occursL ('{' :: (mid ++ ['}'])) s = false := by
  intro s
  induction s with
  | nil => intro _; rfl
  | cons c rest ih =>
    intro h
    rw [hasBraceTok, Bool.or_eq_false_iff] at h
    rw [occursL, Bool.or_eq_false_iff]
    refine ⟨?_, ih h.2⟩
    by_contra hoc
    rw [Bool.not_eq_false, List.isPrefixOf_cons₂, Bool.and_eq_true] at hoc
    have hc : ('{' : Char) = c := eq_of_beq hoc.1
    have hmem : ('}' : Char) ∈ rest :=
      mem_of_isPrefixOf (mid ++ ['}']) rest (by simp) hoc.2
    have : (c == '{' && rest.any (· == '}')) = true := by
      rw [Bool.and_eq_true]
      exact ⟨by simp [← hc], by rw [List.any_eq_true]; exact ⟨'}', hmem, by simp⟩⟩
    rw [h.1] at this
    cases this

/-- Keys without regex metacharacters contain no bar. -/
theorem keyLiteral_no_bar (k : String) (hk : keyLiteral k = true) :
    ∀ c ∈ k.data, c ≠ '|' := by
  intro c hc heq
  rw [keyLiteral, List.all_eq_true] at hk
  have := hk c hc
  rw [heq] at this
  exact absurd this (by decide)

/-- Splitting on a separator that never occurs returns the whole list. -/
theorem splitOnChar_no_sep (sep : Char) :
    ∀ l : List Char, (∀ c ∈ l, c ≠ sep) → splitOnChar sep l = [l] := by
  intro l
  induction l with
  | nil => intro _; rfl
  | cons c rest ih =>
    intro h
    simp only [splitOnChar,
      ih (fun x hx => h x (List.mem_cons_of_mem c hx))]
    rw [if_neg (h c (List.mem_cons_self c rest))]

/-- A metacharacter-free key builds the single literal alternative `{k}`. -/
theorem patternAlts_literal (k : String) (hk : keyLiteral k = true) :
    patternAlts k = ['{' :: (k.data ++ ['}'])] := by
  unfold patternAlts
  rw [splitOnChar_no_sep '|' k.data (keyLiteral_no_bar k hk)]
  rfl

/-- A metacharacter-free key is inside the modelled fragment. -/
theorem keyLiteral_modelled (k : String) (hk : keyLiteral k = true) :
    keyModelled k = true := by
  unfold keyModelled
  rw [Bool.and_eq_true]
  refine ⟨?_, ?_⟩
  · rw [List.all_eq_true]
    intro c hc
    rw [keyLiteral, List.all_eq_true] at hk
    rw [Bool.or_eq_true]
    exact Or.inl (hk c hc)
  · rw [splitOnChar_no_sep '|' k.data (keyLiteral_no_bar k hk)]
    rfl

/-- A subject without brace tokens is untouched by the substitution of a
metacharacter-free key. -/
theorem jsReplace_literal_id (s k v : String) (hk : keyLiteral k = true)
    (hb : hasBraceTok s.data = false) :
    jsReplace s (patternAlts k) v = s := by
  rw [patternAlts_literal k hk]
  apply jsReplace_no_match
  rw [hasMatch_singleton]
  exact no_occur_of_no_braceTok k.data s.data hb

/-- One step of the `substPairs` fold, for a key inside the modelled
fragment. -/
theorem substPairs_pair (k v : String) (rest : List (String × String))
    (s : String) (hm : keyModelled k = true) :
    substPairs ((k, v) :: rest) s =
      substPairs rest (jsReplace s (patternAlts k) v) := by
  show substPairs rest
    (if keyModelled k then jsReplace s (patternAlts k) v else s) = _
  rw [if_pos hm]

/-- A subject without brace tokens is untouched by the whole key
substitution pass when every key is metacharacter-free. -/
theorem substPairs_id (pairs : List (String × String)) :
    ∀ s : String, pairs.all (fun kv => keyLiteral kv.1) = true →
      hasBraceTok s.data = false → substPairs pairs s = s := by
  induction pairs with
  | nil => intro s _ _; rfl
  | cons kv rest ih =>
    intro s hks hb
    rw [List.all_cons, Bool.and_eq_true] at hks
    rw [substPairs_pair kv.1 kv.2 rest s (keyLiteral_modelled kv.1 hks.1)]
    rw [jsReplace_literal_id s kv.1 kv.2 hks.1 hb]
    exact ih s hks.2 hb

/-- C6 counterexample: the key `a|b` — legal in a query string — is
interpolated unescaped into the RegExp, whose alternation then matches the
bare text `b\x7d`, so substitution rewrites a link containing no `{...}`
token at all, refuting the claim's "every query string whatsoever". -/
theorem c6_metachar_key_rewrites :
    replaceQueryPlaceholder "xb\x7dy" "a|b=1" = "x1y" ∧
      replaceQueryPlaceholder "xb\x7dy" "a|b=1" ≠ "xb\x7dy" := by
  constructor
  · decide
  · decide

/-- C6 (corrected): for every link template containing no `{...}` token and
every query string all of whose keys are free of regex metacharacters,
placeholder substitution returns the link unchanged and does not fault.
(The keys are interpolated unescaped into the RegExp, so a key with
metacharacters can rewrite a token-free link through alternation, or make
the constructor throw; the original claim's "every query string
whatsoever" fails there.) -/
theorem c6_no_placeholder_identity (link qs : String)
    (hb : hasBraceTok link.data = false)
    (hks : (parseParams qs).all (fun kv => keyLiteral kv.1) = true) :
    replaceQueryPlaceholder link qs = link := by
  unfold replaceQueryPlaceholder
  rw [jsReplace_literal_id link "query" qs (by decide) hb]
  by_cases hqs : qs = ""
  · rw [if_pos hqs]
  · rw [if_neg hqs]
    exact substPairs_id (parseParams qs) link hks hb

/-- Witness for C6 at a concrete brace-free link and nonempty query with
plain keys. -/
theorem c6_no_placeholder_identity_witness :
    replaceQueryPlaceholder "https://example.com/a?b=c" "b=1&c=2" =
      "https://example.com/a?b=c" :=
  c6_no_placeholder_identity "https://example.com/a?b=c" "b=1&c=2"
    (by decide) (by decide)

/-- C1 counterexample: with the repeated key `a=1&a=2`, the placeholder
`{a}` is replaced by the value of the FIRST occurrence, `1`, not by the
value `2` of the last occurrence as the claim states. -/
theorem c1_last_occurrence_refuted :
    replaceQueryPlaceholder "u={a}" "a=1&a=2" = "u=1" ∧
      replaceQueryPlaceholder "u={a}" "a=1&a=2" ≠ "u=2" := by
  constructor
  · decide
  · decide

/-- C1 (corrected): the `URLSearchParams` pairs are substituted in order of
occurrence, so for a query string parsing to a repeated
metacharacter-free key the FIRST occurrence's decoded value is the one
substituted, whenever that first substitution leaves no further `{key}`
match behind. -/
theorem c1_repeated_key_first_wins (u qs k v₁ v₂ : String)
    (hk : keyLiteral k = true)
    (hp : parseParams qs = [(k, v₁), (k, v₂)])
    (hno : hasMatch (patternAlts k)
      (jsReplace (jsReplace u (patternAlts "query") qs) (patternAlts k) v₁).data
      = false) :
    replaceQueryPlaceholder u qs =
      jsReplace (jsReplace u (patternAlts "query") qs) (patternAlts k) v₁ := by
  have hqs : qs ≠ "" := by
    intro hq
    rw [hq] at hp
    have : parseParams "" = [] := by decide
    rw [this] at hp
    cases hp
  have hm : keyModelled k = true := keyLiteral_modelled k hk
  unfold replaceQueryPlaceholder
  rw [if_neg hqs, hp]
  rw [substPairs_pair k v₁ [(k, v₂)] _ hm]
  rw [substPairs_pair k v₂ [] _ hm]
  show jsReplace (jsReplace (jsReplace u (patternAlts "query") qs)
    (patternAlts k) v₁) (patternAlts k) v₂ = _
  rw [jsReplace_no_match _ _ _ hno]

/-- Witness for C1's corrected statement at the counterexample's input. -/
theorem c1_repeated_key_first_wins_witness :
    replaceQueryPlaceholder "u={a}" "a=1&a=2" =
      jsReplace (jsReplace "u={a}" (patternAlts "query") "a=1&a=2")
        (patternAlts "a") "1" :=
  c1_repeated_key_first_wins "u={a}" "a=1&a=2" "a" "1" "2"
    (by decide) (by decide) (by decide)

/-- C5 counterexample: with query `a={b}&b=2`, the decoded value `{b}` of
key `a` IS re-expanded by the later substitution of key `b`, yielding
`x2y`, not the un-re-expanded `x{b}y` the claim requires. -/
theorem c5_not_single_pass :
    replaceQueryPlaceholder "x{a}y" "a={b}&b=2" = "x2y" ∧
      replaceQueryPlaceholder "x{a}y" "a={b}&b=2" ≠ "x{b}y" := by
  constructor
  · decide
  · decide

/-- C5 (corrected): `{query}` is replaced before any individual key, and a
key named `query` causes no double expansion whenever the `{query}`
expansion — which interprets the replacement-string patterns `$$`, `$&`
and the before/after-match patterns in the raw query string — leaves no
`{query}` match behind; but substitution is not single-pass across keys —
a decoded value containing `{otherKey}` is re-expanded when `otherKey`
occurs later in the query string. -/
theorem c5_query_before_keys (u qs v : String)
    (hp : parseParams qs = [("query", v)])
    (hno : hasMatch (patternAlts "query")
      (jsReplace u (patternAlts "query") qs).data = false) :
    replaceQueryPlaceholder u qs = jsReplace u (patternAlts "query") qs := by
  have hqs : qs ≠ "" := by
    intro hq
    rw [hq] at hp
    have : parseParams "" = [] := by decide
    rw [this] at hp
    cases hp
  unfold replaceQueryPlaceholder
  rw [if_neg hqs, hp]
  rw [substPairs_pair "query" v [] _ (by decide)]
  show jsReplace (jsReplace u (patternAlts "query") qs)
    (patternAlts "query") v = _
  rw [jsReplace_no_match _ _ _ hno]

/-- Witness for C5's corrected statement: a key literally named `query`
does not re-trigger the whole-string placeholder. -/
theorem c5_query_before_keys_witness :
    replaceQueryPlaceholder "go?{query}" "query=abc" =
      jsReplace "go?{query}" (patternAlts "query") "query=abc" :=
  c5_query_before_keys "go?{query}" "query=abc" "abc" (by decide) (by decide)

/-- C8 (confirmed): font resolution uses a truthy `fontUrl` verbatim;
otherwise a present `fontFamily` yields the provider URL for the trimmed
first comma-separated family name, percent-encoded, at weights
400/500/600/700; with neither source the resolution is empty.  Applying the
resolved URL is idempotent, keeps at most one injected font link, and a
changed URL overwrites the existing link in place. -/
theorem c8_font_resolution :
    (∀ config : PageConfig, truthy config.fontUrl = true →
      getFontUrl config = config.fontUrl) ∧
    (∀ (config : PageConfig) (fam : String), truthy config.fontUrl = false →
      config.fontFamily = some fam → jsTrim (firstSplitComma fam) ≠ "" →
      getFontUrl config = some ("https://fonts.googleapis.com/css2?family=" ++
        encodeURIComponent (jsTrim (firstSplitComma fam)) ++
        ":wght@400;500;600;700&display=swap")) ∧
    (∀ config : PageConfig, truthy config.fontUrl = false →
      truthy config.fontFamily = false → getFontUrl config = none) ∧
    (∀ (config : PageConfig) (links : List String),
      ensureFont config (ensureFont config links) = ensureFont config links) ∧
    (∀ (config : PageConfig) (links : List String), links.length ≤ 1 →
      (ensureFont config links).length ≤ 1) ∧
    (∀ (config : PageConfig) (old u : String) (rest : List String),
      getFontUrl config = some u → ensureFont config (old :: rest) = u :: rest) := by
  refine ⟨?_, ?_, ?_, ?_, ?_, ?_⟩
  · intro config h
    unfold getFontUrl
    rw [if_pos h]
  · intro config fam hurl hfam hne
    have htr : truthy config.fontFamily = true := by
      rw [hfam]
      unfold truthy
      simp only [decide_eq_true_eq]
      intro hf
      rw [hf] at hne
      exact hne (by decide)
    unfold getFontUrl
    rw [if_neg (by rw [hurl]; intro hc; cases hc), if_neg (by rw [htr]; intro hc; exact hc rfl)]
    rw [hfam]
    show (if jsTrim (firstSplitComma fam) = "" then none else _) = _
    rw [if_neg hne]
    rfl
  · intro config hurl hfam
    unfold getFontUrl
    rw [if_neg (by rw [hurl]; intro hc; cases hc),
      if_pos (by rw [hfam]; intro hc; cases hc)]
  · intro config links
    cases hf : getFontUrl config with
    | none => simp only [ensureFont, hf]
    | some u =>
      cases links with
      | nil => simp [ensureFont, hf]
      | cons href rest =>
        simp only [ensureFont, hf]
        by_cases hh : href = u
        · simp [hh]
        · simp [hh]
  · intro config links hlen
    cases hf : getFontUrl config with
    | none => simp only [ensureFont, hf]; exact hlen
    | some u =>
      cases links with
      | nil => simp [ensureFont, hf]
      | cons href rest =>
        simp only [ensureFont, hf]
        by_cases hh : href = u
        · simp only [hh]
          rw [if_neg (by simp)]
          exact hlen
        · rw [if_pos hh]
          simpa using hlen
  · intro config old u rest hf
    simp only [ensureFont, hf]
    by_cases hh : old = u
    · simp only [hh]
      rw [if_neg (by simp)]
    · rw [if_pos hh]

/-- Witness for C8 at the spec's example configuration. -/
theorem c8_font_resolution_witness :
    getFontUrl { fontFamily := some "Noto Sans SC, sans-serif" } =
      some ("https://fonts.googleapis.com/css2?family=" ++
        encodeURIComponent (jsTrim (firstSplitComma "Noto Sans SC, sans-serif")) ++
        ":wght@400;500;600;700&display=swap") ∧
    ensureFont { fontFamily := some "Noto Sans SC, sans-serif" }
        (ensureFont { fontFamily := some "Noto Sans SC, sans-serif" } []) =
      ensureFont { fontFamily := some "Noto Sans SC, sans-serif" } [] :=
  ⟨c8_font_resolution.2.1 { fontFamily := some "Noto Sans SC, sans-serif" }
      "Noto Sans SC, sans-serif" (by decide) rfl (by decide),
    c8_font_resolution.2.2.2.1 { fontFamily := some "Noto Sans SC, sans-serif" } []⟩

/-- The coalescing invariant of the scroll state: at most one `updateState`
is queued, and it is queued exactly while `ticking` is set. -/
def scrollInv (s : ScrollState) : Prop :=
  s.pending ≤ 1 ∧ (s.ticking = true ↔ s.pending = 1)

/-- Each event preserves the coalescing invariant. -/
theorem scrollStep_inv (s : ScrollState) (e : ScrollEv) (h : scrollInv s) :
    scrollInv (scrollStep s e) := by
  obtain ⟨t, p⟩ := s
  obtain ⟨h1, h2⟩ := h
  simp only at h1 h2
  cases e with
  | raw =>
    simp only [scrollStep]
    by_cases ht : t = true
    · rw [if_pos ht]; exact ⟨h1, h2⟩
    · rw [if_neg ht]
      have hne : ¬ p = 1 := fun hp => ht (h2.mpr hp)
      have hp0 : p = 0 := by omega
      subst hp0
      exact ⟨by decide, by decide⟩
  | frame =>
    cases p with
    | zero => exact ⟨h1, h2⟩
    | succ n =>
      have hn : n = 0 := by omega
      subst hn
      show scrollInv ⟨false, 0⟩
      exact ⟨by decide, by decide⟩

/-- The invariant holds after any event sequence from the initial state. -/
theorem runScroll_inv (evs : List ScrollEv) :
    scrollInv (runScroll scrollInit evs) := by
  have gen : ∀ (l : List ScrollEv) (s : ScrollState), scrollInv s →
      scrollInv (runScroll s l) := by
    intro l
    induction l with
    | nil => intro s h; exact h
    | cons e rest ih =>
      intro s h
      exact ih (scrollStep s e) (scrollStep_inv s e h)
  exact gen evs scrollInit ⟨by decide, by decide⟩

/-- C9 (confirmed): after any sequence of raw scroll/resize events and
animation frames, at most one recomputation is queued; a raw event arriving
while one is queued schedules nothing (the state is unchanged); and running
the queued recomputation clears both the queue and the `ticking` flag,
re-enabling scheduling only then. -/
theorem c9_scroll_coalesced (evs : List ScrollEv) :
    (runScroll scrollInit evs).pending ≤ 1 ∧
    ((runScroll scrollInit evs).pending = 1 →
      scrollStep (runScroll scrollInit evs) ScrollEv.raw = runScroll scrollInit evs) ∧
    ((runScroll scrollInit evs).pending = 1 →
      scrollStep (runScroll scrollInit evs) ScrollEv.frame = ⟨false, 0⟩) := by
  obtain ⟨h1, h2⟩ := runScroll_inv evs
  refine ⟨h1, ?_, ?_⟩
  · intro hp
    unfold scrollStep
    rw [if_pos (h2.mpr hp)]
  · intro hp
    unfold scrollStep
    rw [hp]

/-- Witness for C9 after one raw event (one recomputation queued). -/
theorem c9_scroll_coalesced_witness :
    (runScroll scrollInit [ScrollEv.raw]).pending ≤ 1 ∧
    scrollStep (runScroll scrollInit [ScrollEv.raw]) ScrollEv.raw =
      runScroll scrollInit [ScrollEv.raw] ∧
    scrollStep (runScroll scrollInit [ScrollEv.raw]) ScrollEv.frame = ⟨false, 0⟩ :=
  ⟨(c9_scroll_coalesced [ScrollEv.raw]).1,
    (c9_scroll_coalesced [ScrollEv.raw]).2.1 (by decide),
    (c9_scroll_coalesced [ScrollEv.raw]).2.2 (by decide)⟩

/-- Lists differing on their `take n` prefix differ. -/
theorem ne_of_take_ne (n : Nat) (l₁ l₂ : List Char)
    (h : l₁.take n ≠ l₂.take n) : l₁ ≠ l₂ :=
  fun heq => h (heq ▸ rfl)

/-- The "image not found" message differs from the page-not-found message,
whatever the index and page id. -/
theorem msg_distinct_page (i : Nat) (pp : String) :
    ("找不到索引为 " ++ Nat.repr i ++ " 的按钮") ≠ "找不到页面: " ++ pp := by
  intro h
  have hd := congrArg String.data h
  simp only [String.data_append, List.append_assoc] at hd
  have h7 := congrArg (List.take 7) hd
  rw [List.take_left' (by decide), List.take_left' (by decide)] at h7
  exact absurd h7 (by decide)

/-- The "image not found" message differs from the generic route-404
message, whatever the index. -/
theorem msg_distinct_notfound (i : Nat) :
    ("找不到索引为 " ++ Nat.repr i ++ " 的按钮") ≠ "页面不存在" := by
  intro h
  have hd := congrArg String.data h
  simp only [String.data_append, List.append_assoc] at hd
  have hlen := congrArg List.length hd
  simp only [List.length_append] at hlen
  rw [(by decide : "找不到索引为 ".data.length = 7),
    (by decide : " 的按钮".data.length = 4),
    (by decide : "页面不存在".data.length = 5)] at hlen
  omega

/-- A rejected config fetch makes `init` render the page-not-found view. -/
theorem init_fetch_error (pathname search : String) (le : LoadError)
    (pp : String) (h : (parseURL pathname search).pagePath = some pp) :
    init pathname search (Except.error le) =
      View.error "页面不存在" ("找不到页面: " ++ pp) := by
  simp only [init]
  rw [h]
  rfl

/-- Any error thrown while rendering a recognised route is caught by `init`
and replaced by the page-not-found view naming the page id. -/
theorem init_render_error (pathname search : String) (cfg : PageConfig)
    (pp : String) (e : JsError)
    (h : (parseURL pathname search).pagePath = some pp)
    (hr : renderRoute pp cfg (parseURL pathname search).imageIndex
      (parseURL pathname search).queryString = Except.error e) :
    init pathname search (Except.ok cfg) =
      View.error "页面不存在" ("找不到页面: " ++ pp) := by
  simp only [init]
  rw [h]
  simp only [hr]
  rfl

/-- C10 (confirmed): on every recognised route, a failed fetch and every
exception thrown by either screen renderer are caught by `init` and
replaced by the page-not-found error view naming the page id; `init` is a
total function of the embedding, so nothing escapes it. -/
theorem c10_init_catches_render_errors (pathname search : String)
    (fetched : Except LoadError PageConfig) (pp : String)
    (h : (parseURL pathname search).pagePath = some pp) :
    (∀ le, fetched = Except.error le →
      init pathname search fetched =
        View.error "页面不存在" ("找不到页面: " ++ pp)) ∧
    (∀ (cfg : PageConfig) (e : JsError), fetched = Except.ok cfg →
      renderRoute pp cfg (parseURL pathname search).imageIndex
        (parseURL pathname search).queryString = Except.error e →
      init pathname search fetched =
        View.error "页面不存在" ("找不到页面: " ++ pp)) := by
  constructor
  · intro le hle
    rw [hle]
    exact init_fetch_error pathname search le pp h
  · intro cfg e hok hr
    rw [hok]
    exact init_render_error pathname search cfg pp e h hr

/-- Witness for C10: a config without `buttons` makes the list renderer
throw, and `init` substitutes the page-not-found view. -/
theorem c10_init_catches_render_errors_witness :
    init "/demo" "" (Except.ok cfgNoButtons) =
      View.error "页面不存在" ("找不到页面: " ++ "demo") :=
  (c10_init_catches_render_errors "/demo" "" (Except.ok cfgNoButtons) "demo"
    (by decide)).2 cfgNoButtons JsError.typeError rfl (by decide)

/-- C3 counterexample: with `buttons` absent the list renderer does not
produce an empty button list — it throws a `TypeError`, and `init`
substitutes the page-not-found error view. -/
theorem c3_counterexample :
    renderButtonsPage "demo" cfgNoButtons "" = Except.error JsError.typeError ∧
    init "/demo" "" (Except.ok cfgNoButtons) =
      View.error "页面不存在" "找不到页面: demo" :=
  ⟨by decide, by decide⟩

/-- C3 (corrected): for every config with `buttons` absent, rendering the
list screen faults with a `TypeError` (it does not render an empty list),
and on a recognised list route `init` catches the fault and substitutes the
page-not-found error view naming the page id. -/
theorem c3_missing_buttons_faults (pp : String) (cfg : PageConfig)
    (qs : String) (hb : cfg.buttons = none) :
    renderButtonsPage pp cfg qs = Except.error JsError.typeError ∧
    (∀ pathname search, (parseURL pathname search).pagePath = some pp →
      (parseURL pathname search).imageIndex = none →
      init pathname search (Except.ok cfg) =
        View.error "页面不存在" ("找不到页面: " ++ pp)) := by
  have h1 : ∀ q : String, renderButtonsPage pp cfg q = Except.error JsError.typeError := by
    intro q
    unfold renderButtonsPage
    rw [hb]
  refine ⟨h1 qs, ?_⟩
  intro pathname search hp hi
  apply init_render_error pathname search cfg pp JsError.typeError hp
  rw [hi]
  exact h1 ((parseURL pathname search).queryString)

/-- Witness for C3's corrected statement on a second concrete route. -/
theorem c3_missing_buttons_faults_witness :
    renderButtonsPage "home" cfgNoButtons "x=1" = Except.error JsError.typeError ∧
    init "/home" "?x=1" (Except.ok cfgNoButtons) =
      View.error "页面不存在" ("找不到页面: " ++ "home") :=
  ⟨(c3_missing_buttons_faults "home" cfgNoButtons "x=1" rfl).1,
    (c3_missing_buttons_faults "home" cfgNoButtons "x=1" rfl).2
      "/home" "?x=1" (by decide) (by decide)⟩

/-- C4 counterexample: with `buttons` absent entirely, index 0 has no
corresponding entry, yet the renderer does not produce the "image not
found" view — it throws a `TypeError`. -/
theorem c4_counterexample :
    renderImagePage "demo" cfgNoButtons 0 "" = Except.error JsError.typeError := by
  decide

/-- C4 (corrected): for every config whose `buttons` field is present and
every index with no corresponding entry, the detail renderer produces
exactly the dedicated "image not found" error view naming the missing
index — whose message differs from both not-found messages — and does not
fault; when `buttons` is absent entirely the renderer instead throws. -/
theorem c4_missing_index_error_view (pp : String) (cfg : PageConfig)
    (i : Nat) (qs : String) (bs : List ButtonConfig)
    (hb : cfg.buttons = some bs) (hi : bs.get? i = none) :
    renderImagePage pp cfg i qs =
      Except.ok (renderError "图片不存在" ("找不到索引为 " ++ Nat.repr i ++ " 的按钮")) ∧
    (∀ pp2 : String,
      ("找不到索引为 " ++ Nat.repr i ++ " 的按钮") ≠ "找不到页面: " ++ pp2) ∧
    ("找不到索引为 " ++ Nat.repr i ++ " 的按钮") ≠ "页面不存在" := by
  refine ⟨?_, fun pp2 => msg_distinct_page i pp2, msg_distinct_notfound i⟩
  unfold renderImagePage
  rw [hb]
  simp only [hi]

/-- A configuration with an empty `buttons` list. -/
def cfgEmptyButtons : PageConfig := { buttons := some [] }

/-- Witness for C4's corrected statement at an empty button list. -/
theorem c4_missing_index_error_view_witness :
    renderImagePage "demo" cfgEmptyButtons 5 "" =
      Except.ok (renderError "图片不存在" ("找不到索引为 " ++ Nat.repr 5 ++ " 的按钮")) ∧
    ("找不到索引为 " ++ Nat.repr 5 ++ " 的按钮") ≠ "找不到页面: demo" := by
  obtain ⟨h1, h2, _⟩ := c4_missing_index_error_view "demo" cfgEmptyButtons 5 "" [] rfl rfl
  refine ⟨h1, ?_⟩
  have heq : ("找不到页面: " ++ "demo" : String) = "找不到页面: demo" := by decide
  exact heq ▸ h2 "demo"

/-- Indexing into the rendered button list mirrors indexing into the
configured buttons. -/
theorem renderListButtons_get (sBg sTx : Option String) :
    ∀ (bs : List ButtonConfig) (idx j : Nat),
      (renderListButtons sBg sTx bs idx).get? j = (bs.get? j).map fun btn =>
        { index := idx + j
          icon := if truthy btn.icon then some (jsStr btn.icon) else none
          text := jsStr btn.text
          subtitle := if truthy btn.subtitle then some (jsStr btn.subtitle) else none
          styleAttr := buildStyleVars (jsNullish btn.backgroundColor sBg)
            (jsNullish btn.textColor sTx) } := by
  intro bs
  induction bs with
  | nil => intro idx j; simp [renderListButtons]
  | cons btn rest ih =>
    intro idx j
    cases j with
    | zero => simp [renderListButtons]
    | succ n =>
      show (renderListButtons sBg sTx rest (idx + 1)).get? n = _
      rw [ih (idx + 1) n]
      simp only [List.get?_cons_succ, Nat.add_assoc, Nat.add_comm 1 n]

/-- C7 (confirmed): color resolution is strictly layered on both screens —
an explicit button color always wins; an absent button color inherits the
surface color for its screen (`pageButtonBackgroundColor` on the list
screen, `imageButtonBackgroundColor` on the detail screen, each falling
back to `buttonBackgroundColor`); the rendered cards carry exactly the
style produced from that resolution; and when no tier provides a color no
inline style override is emitted at all.  The detail-screen conjunct is
scoped to query strings whose keys lie in the modelled substitution
fragment: outside it the source's link substitution can throw before the
view is built, a path the substitution model does not cover. -/
theorem c7_color_layering :
    (∀ (cfg : PageConfig) (btn : ButtonConfig) (c : String),
      btn.backgroundColor = some c →
      jsNullish btn.backgroundColor
        (jsOrStr cfg.pageButtonBackgroundColor cfg.buttonBackgroundColor) = some c ∧
      jsNullish btn.backgroundColor
        (jsOrStr cfg.imageButtonBackgroundColor cfg.buttonBackgroundColor) = some c) ∧
    (∀ (cfg : PageConfig) (btn : ButtonConfig), btn.backgroundColor = none →
      jsNullish btn.backgroundColor
        (jsOrStr cfg.pageButtonBackgroundColor cfg.buttonBackgroundColor) =
        jsOrStr cfg.pageButtonBackgroundColor cfg.buttonBackgroundColor ∧
      jsNullish btn.backgroundColor
        (jsOrStr cfg.imageButtonBackgroundColor cfg.buttonBackgroundColor) =
        jsOrStr cfg.imageButtonBackgroundColor cfg.buttonBackgroundColor) ∧
    (∀ (pp : String) (cfg : PageConfig) (qs : String) (bs : List ButtonConfig)
      (j : Nat) (btn : ButtonConfig), cfg.buttons = some bs → bs.get? j = some btn →
      ∃ lv : ListView, renderButtonsPage pp cfg qs = Except.ok (View.listV lv) ∧
        lv.buttons.get? j = some
          { index := j
            icon := if truthy btn.icon then some (jsStr btn.icon) else none
            text := jsStr btn.text
            subtitle := if truthy btn.subtitle then some (jsStr btn.subtitle) else none
            styleAttr := buildStyleVars
              (jsNullish btn.backgroundColor
                (jsOrStr cfg.pageButtonBackgroundColor cfg.buttonBackgroundColor))
              (jsNullish btn.textColor
                (jsOrStr cfg.pageButtonTextColor cfg.buttonTextColor)) }) ∧
    (∀ (pp : String) (cfg : PageConfig) (qs : String) (bs : List ButtonConfig)
      (i : Nat) (btn : ButtonConfig) (lnk : String), cfg.buttons = some bs →
      bs.get? i = some btn → btn.link = some lnk →
      (parseParams qs).all (fun kv => keyModelled kv.1) = true →
      ∃ iv : ImageView, renderImagePage pp cfg i qs = Except.ok (View.imageV iv) ∧
        iv.styleAttr = buildStyleVars
          (jsNullish btn.backgroundColor
            (jsOrStr cfg.imageButtonBackgroundColor cfg.buttonBackgroundColor))
          (jsNullish btn.textColor
            (jsOrStr cfg.imageButtonTextColor cfg.buttonTextColor))) ∧
    (∀ (cfg : PageConfig) (btn : ButtonConfig),
      btn.backgroundColor = none → btn.textColor = none →
      cfg.pageButtonBackgroundColor = none → cfg.buttonBackgroundColor = none →
      cfg.pageButtonTextColor = none → cfg.buttonTextColor = none →
      cfg.imageButtonBackgroundColor = none → cfg.imageButtonTextColor = none →
      buildStyleVars
        (jsNullish btn.backgroundColor
          (jsOrStr cfg.pageButtonBackgroundColor cfg.buttonBackgroundColor))
        (jsNullish btn.textColor
          (jsOrStr cfg.pageButtonTextColor cfg.buttonTextColor)) = "" ∧
      buildStyleVars
        (jsNullish btn.backgroundColor
          (jsOrStr cfg.imageButtonBackgroundColor cfg.buttonBackgroundColor))
        (jsNullish btn.textColor
          (jsOrStr cfg.imageButtonTextColor cfg.buttonTextColor)) = "") := by
  refine ⟨?_, ?_, ?_, ?_, ?_⟩
  · intro cfg btn c hc
    rw [hc]
    exact ⟨rfl, rfl⟩
  · intro cfg btn hc
    rw [hc]
    exact ⟨rfl, rfl⟩
  · intro pp cfg qs bs j btn hb hj
    unfold renderButtonsPage
    rw [hb]
    refine ⟨_, rfl, ?_⟩
    show (renderListButtons
      (jsOrStr cfg.pageButtonBackgroundColor cfg.buttonBackgroundColor)
      (jsOrStr cfg.pageButtonTextColor cfg.buttonTextColor) bs 0).get? j = _
    rw [renderListButtons_get, hj]
    simp only [Nat.zero_add]
    rfl
  · intro pp cfg qs bs i btn lnk hb hi hl _hqs
    unfold renderImagePage
    rw [hb]
    simp only [hi, hl]
    exact ⟨_, rfl, rfl⟩
  · intro cfg btn h1 h2 h3 h4 h5 h6 h7 h8
    rw [h1, h2, h3, h4, h5, h6, h7, h8]
    exact ⟨by decide, by decide⟩

/-- A button with an explicit background color, for the C7 witness. -/
def btnRed : ButtonConfig := { backgroundColor := some "red", link := some "https://x" }

/-- A page config with a surface-level button color, for the C7 witness. -/
def cfgColors : PageConfig :=
  { pageButtonBackgroundColor := some "blue", buttons := some [btnRed] }

/-- Witness for C7: the explicit button color beats the surface color, and
an all-absent configuration emits no style attribute. -/
theorem c7_color_layering_witness :
    jsNullish btnRed.backgroundColor
      (jsOrStr cfgColors.pageButtonBackgroundColor cfgColors.buttonBackgroundColor) =
      some "red" ∧
    buildStyleVars
      (jsNullish ({} : ButtonConfig).backgroundColor
        (jsOrStr ({} : PageConfig).pageButtonBackgroundColor
          ({} : PageConfig).buttonBackgroundColor))
      (jsNullish ({} : ButtonConfig).textColor
        (jsOrStr ({} : PageConfig).pageButtonTextColor
          ({} : PageConfig).buttonTextColor)) = "" := by
  constructor
  · exact (c7_color_layering.1 cfgColors btnRed "red" rfl).1
  · exact ((c7_color_layering.2.2.2.2
      ({} : PageConfig) ({} : ButtonConfig) rfl rfl rfl rfl rfl rfl rfl rfl).1)

/-- `takeWhile` is the identity on a list all of whose elements satisfy the
predicate. -/
theorem takeWhile_of_all {p : Char → Bool} :
    ∀ l : List Char, (∀ a ∈ l, p a = true) → List.takeWhile p l = l := by
  intro l
  induction l with
  | nil => intro _; rfl
  | cons a t ih =>
    intro h
    rw [List.takeWhile_cons, if_pos (h a (List.mem_cons_self a t)),
      ih (fun b hb => h b (List.mem_cons_of_mem a hb))]

/-- `dropWhile` empties a list all of whose elements satisfy the
predicate. -/
theorem dropWhile_of_all {p : Char → Bool} :
    ∀ l : List Char, (∀ a ∈ l, p a = true) → List.dropWhile p l = [] := by
  intro l
  induction l with
  | nil => intro _; rfl
  | cons a t ih =>
    intro h
    rw [List.dropWhile_cons, if_pos (h a (List.mem_cons_self a t)),
      ih (fun b hb => h b (List.mem_cons_of_mem a hb))]

/-- `takeWhile` over an all-satisfying prefix followed by a failing element
returns exactly that prefix. -/
theorem takeWhile_append_stop {p : Char → Bool} :
    ∀ (l₁ : List Char) (b : Char) (l₂ : List Char),
      (∀ a ∈ l₁, p a = true) → p b = false →
      List.takeWhile p (l₁ ++ b :: l₂) = l₁ := by
  intro l₁
  induction l₁ with
  | nil =>
    intro b l₂ _ hb
    rw [List.nil_append, List.takeWhile_cons, if_neg (by rw [hb]; intro hc; cases hc)]
  | cons a t ih =>
    intro b l₂ h hb
    rw [List.cons_append, List.takeWhile_cons, if_pos (h a (List.mem_cons_self a t)),
      ih b l₂ (fun x hx => h x (List.mem_cons_of_mem a hx)) hb]

/-- `dropWhile` over an all-satisfying prefix followed by a failing element
returns the failing element and everything after it. -/
theorem dropWhile_append_stop {p : Char → Bool} :
    ∀ (l₁ : List Char) (b : Char) (l₂ : List Char),
      (∀ a ∈ l₁, p a = true) → p b = false →
      List.dropWhile p (l₁ ++ b :: l₂) = b :: l₂ := by
  intro l₁
  induction l₁ with
  | nil =>
    intro b l₂ _ hb
    rw [List.nil_append, List.dropWhile_cons, if_neg (by rw [hb]; intro hc; cases hc)]
  | cons a t ih =>
    intro b l₂ h hb
    rw [List.cons_append, List.dropWhile_cons, if_pos (h a (List.mem_cons_self a t)),
      ih b l₂ (fun x hx => h x (List.mem_cons_of_mem a hx)) hb]

/-- Every element of a `takeWhile` satisfies the predicate. -/
theorem mem_takeWhile {p : Char → Bool} :
    ∀ (l : List Char) (a : Char), a ∈ List.takeWhile p l → p a = true := by
  intro l
  induction l with
  | nil => intro a h; cases h
  | cons c t ih =>
    intro a h
    rw [List.takeWhile_cons] at h
    by_cases hc : p c = true
    · rw [if_pos hc] at h
      cases h with
      | head => exact hc
      | tail _ hmem => exact ih a hmem
    · rw [if_neg hc] at h
      cases h

/-- The path regex accepts `/{segment}` for a nonempty slash-free
segment. -/
theorem matchPath_shape_one (seg : List Char) (hne : seg ≠ [])
    (hns : ∀ a ∈ seg, a ≠ '/') : matchPath ('/' :: seg) = some (seg, none) := by
  have ht : List.takeWhile (fun a => decide (a ≠ '/')) seg = seg :=
    takeWhile_of_all seg (fun a ha => by simp [hns a ha])
  have hd : List.dropWhile (fun a => decide (a ≠ '/')) seg = [] :=
    dropWhile_of_all seg (fun a ha => by simp [hns a ha])
  rw [matchPath]
  rw [if_pos rfl]
  simp only [ht, hd]
  rw [if_neg (by rw [List.isEmpty_iff]; exact hne)]
  rfl

/-- The path regex accepts `/{segment}/image/{digits}` for a nonempty
slash-free segment and a nonempty digit group. -/
theorem matchPath_shape_two (seg ds : List Char) (hne : seg ≠ [])
    (hns : ∀ a ∈ seg, a ≠ '/') (hdne : ds ≠ [])
    (hdig : ∀ d ∈ ds, d.isDigit = true) :
    matchPath ('/' :: (seg ++ (imageSep ++ ds))) = some (seg, some ds) := by
  have hsplit : imageSep = '/' :: "image/".data := by decide
  have ht : List.takeWhile (fun a => decide (a ≠ '/'))
      (seg ++ (imageSep ++ ds)) = seg := by
    rw [hsplit, List.cons_append]
    exact takeWhile_append_stop seg '/' ("image/".data ++ ds)
      (fun a ha => by simp [hns a ha]) (by decide)
  have hd : List.dropWhile (fun a => decide (a ≠ '/'))
      (seg ++ (imageSep ++ ds)) = imageSep ++ ds := by
    rw [hsplit, List.cons_append]
    rw [dropWhile_append_stop seg '/' ("image/".data ++ ds)
      (fun a ha => by simp [hns a ha]) (by decide)]
  have htake : (imageSep ++ ds).take 7 = imageSep :=
    List.take_left' (by decide)
  have hdrop : (imageSep ++ ds).drop 7 = ds :=
    List.drop_left' (by decide)
  rw [matchPath]
  rw [if_pos rfl]
  simp only [ht, hd, htake, hdrop]
  rw [if_neg (by rw [List.isEmpty_iff]; exact hne)]
  rw [if_neg (by rw [List.isEmpty_iff]; rw [hsplit]; simp)]
  rw [if_pos ⟨trivial, hdne, by rw [List.all_eq_true]; exact fun d hd2 => hdig d hd2⟩]

/-- Inversion of a `/{segment}`-form match: the path really has that shape,
with a nonempty slash-free segment. -/
theorem matchPath_inv_one (l seg : List Char)
    (h : matchPath l = some (seg, none)) :
    l = '/' :: seg ∧ seg ≠ [] ∧ ∀ a ∈ seg, a ≠ '/' := by
  cases l with
  | nil => simp [matchPath] at h
  | cons c rest =>
    simp only [matchPath] at h
    by_cases hc : c = '/'
    · subst hc
      rw [if_pos rfl] at h
      split_ifs at h with h1 h2 h3
      · simp only [Option.some.injEq, Prod.mk.injEq] at h
        obtain ⟨hseg, -⟩ := h
        subst hseg
        have hdw : List.dropWhile (fun a => decide (a ≠ '/')) rest = [] := by
          rwa [List.isEmpty_iff] at h2
        refine ⟨?_, ?_, ?_⟩
        · have := List.takeWhile_append_dropWhile
            (p := fun a => decide (a ≠ '/')) (l := rest)
          rw [hdw, List.append_nil] at this
          rw [this]
        · intro hemp
          rw [List.isEmpty_iff] at h1
          exact h1 hemp
        · intro a ha
          have := mem_takeWhile rest a ha
          simpa using this
      · simp at h
    · rw [if_neg hc] at h
      cases h

/-- Inversion of a `/{segment}/image/{digits}`-form match. -/
theorem matchPath_inv_two (l seg ds : List Char)
    (h : matchPath l = some (seg, some ds)) :
    l = '/' :: (seg ++ (imageSep ++ ds)) ∧ seg ≠ [] ∧
      (∀ a ∈ seg, a ≠ '/') ∧ ds ≠ [] ∧ ∀ d ∈ ds, d.isDigit = true := by
  cases l with
  | nil => simp [matchPath] at h
  | cons c rest =>
    simp only [matchPath] at h
    by_cases hc : c = '/'
    · subst hc
      rw [if_pos rfl] at h
      split_ifs at h with h1 h2 h3
      · simp at h
      · obtain ⟨hcond1, hcond2, hcond3⟩ := h3
        simp only [Option.some.injEq, Prod.mk.injEq] at h
        obtain ⟨hseg, hds⟩ := h
        subst hseg
        have hrem : List.dropWhile (fun a => decide (a ≠ '/')) rest =
            imageSep ++ ds := by
          have := List.take_append_drop 7
            (List.dropWhile (fun a => decide (a ≠ '/')) rest)
          rw [hcond1, hds] at this
          exact this.symm
        refine ⟨?_, ?_, ?_, ?_, ?_⟩
        · have := List.takeWhile_append_dropWhile
            (p := fun a => decide (a ≠ '/')) (l := rest)
          rw [hrem] at this
          rw [this]
        · intro hemp
          rw [List.isEmpty_iff] at h1
          exact h1 hemp
        · intro a ha
          have := mem_takeWhile rest a ha
          simpa using this
        · rw [← hds]
          exact hcond2
        · intro d hd2
          rw [← hds] at hd2
          have := hcond3
          rw [List.all_eq_true] at this
          exact this d hd2
    · rw [if_neg hc] at h
      cases h

/-- Rebuilding a string from its characters is the identity. -/
theorem string_mk_data (s : String) : String.mk s.data = s := by
  cases s
  rfl

/-- A nonempty string has a nonempty character list. -/
theorem data_ne_nil {s : String} (h : s ≠ "") : s.data ≠ [] :=
  fun hd => h (String.ext hd)

/-- `parseInt` on a digit string computes the base-10 value of the digits
(little-endian `Nat.ofDigits` of the reversed digit values). -/
theorem jsParseIntDigits_ofDigits (ds : List Char) :
    jsParseIntDigits ds =
      Nat.ofDigits 10 ((ds.map fun c => c.toNat - 48).reverse) := by
  have gen : ∀ (l : List Char) (acc : Nat),
      List.foldl (fun acc c => 10 * acc + (c.toNat - 48)) acc l =
        acc * 10 ^ l.length +
          Nat.ofDigits 10 ((l.map fun c => c.toNat - 48).reverse) := by
    intro l
    induction l with
    | nil => intro acc; simp [Nat.ofDigits_nil]
    | cons c t ih =>
      intro acc
      simp only [List.foldl_cons, List.length_cons, List.map_cons,
        List.reverse_cons]
      rw [ih (10 * acc + (c.toNat - 48)), Nat.ofDigits_append]
      simp only [List.length_reverse, List.length_map, Nat.ofDigits_singleton]
      ring
  have := gen ds 0
  simpa [jsParseIntDigits] using this

/-- The query string produced by `parseURL` is always the search component
with its first character removed, whatever the path matches. -/
theorem parseURL_queryString (pathname search : String) :
    (parseURL pathname search).queryString = String.mk (search.data.drop 1) := by
  unfold parseURL
  cases matchPath pathname.data with
  | none => rfl
  | some pr =>
    obtain ⟨seg, io⟩ := pr
    by_cases h : String.mk seg = "index.html"
    · simp only [if_pos h]
    · simp only [if_neg h]

/-- The first recognised URL shape: one nonempty slash-free segment. -/
def shapeOne (p : String) : Prop :=
  ∃ seg : String, seg ≠ "" ∧ '/' ∉ seg.data ∧ p = "/" ++ seg

/-- The second recognised URL shape: a nonempty slash-free segment followed
by `/image/` and a nonempty digit group. -/
def shapeTwo (p : String) : Prop :=
  ∃ seg ds : String, seg ≠ "" ∧ '/' ∉ seg.data ∧ ds ≠ "" ∧
    (∀ d ∈ ds.data, d.isDigit = true) ∧ p = "/" ++ seg ++ "/image/" ++ ds

/-- C2 (confirmed): `parseURL` recognises exactly the two shapes
`/{segment}` and `/{segment}/image/{digits}`; every other path, and the
segment `index.html`, yields no page; the image form's index is the base-10
value of the digit group; and the query string is always the search
component with the leading separator stripped, the empty string when the
query is absent. -/
theorem parseURL_spec :
    (∀ (seg q : String), seg ≠ "" → '/' ∉ seg.data → seg ≠ "index.html" →
      parseURL ("/" ++ seg) ("?" ++ q) = ⟨some seg, none, q⟩) ∧
    (∀ (seg ds q : String), seg ≠ "" → '/' ∉ seg.data → seg ≠ "index.html" →
      ds ≠ "" → (∀ d ∈ ds.data, d.isDigit = true) →
      parseURL ("/" ++ seg ++ "/image/" ++ ds) ("?" ++ q) =
        ⟨some seg,
          some (Nat.ofDigits 10 ((ds.data.map fun c => c.toNat - 48).reverse)),
          q⟩) ∧
    (∀ (p s : String), ¬ shapeOne p → ¬ shapeTwo p →
      (parseURL p s).pagePath = none ∧ (parseURL p s).imageIndex = none) ∧
    (∀ s : String, (parseURL "/index.html" s).pagePath = none ∧
      (parseURL "/index.html" s).imageIndex = none) ∧
    (∀ (s ds : String), ds ≠ "" → (∀ d ∈ ds.data, d.isDigit = true) →
      (parseURL ("/index.html/image/" ++ ds) s).pagePath = none ∧
      (parseURL ("/index.html/image/" ++ ds) s).imageIndex = none) ∧
    (∀ p : String, (parseURL p "").queryString = "") ∧
    (∀ (p q : String), (parseURL p ("?" ++ q)).queryString = q) := by
  have hquery : ∀ q : String, ("?" ++ q).data.drop 1 = q.data := by
    intro q
    simp [String.data_append]
  refine ⟨?_, ?_, ?_, ?_, ?_, ?_, ?_⟩
  · intro seg q hne hns hidx
    have hdata : ("/" ++ seg).data = '/' :: seg.data := by
      simp [String.data_append]
    unfold parseURL
    rw [hdata, matchPath_shape_one seg.data (data_ne_nil hne)
      (fun a ha hs => hns (hs ▸ ha))]
    simp only [string_mk_data, if_neg hidx, Option.map_none']
    rw [hquery, string_mk_data]
  · intro seg ds q hne hns hidx hdne hdig
    have hdata : ("/" ++ seg ++ "/image/" ++ ds).data =
        '/' :: (seg.data ++ (imageSep ++ ds.data)) := by
      simp [imageSep, String.data_append, List.append_assoc]
    unfold parseURL
    rw [hdata, matchPath_shape_two seg.data ds.data (data_ne_nil hne)
      (fun a ha hs => hns (hs ▸ ha)) (data_ne_nil hdne)
      (fun d hd2 => hdig d hd2)]
    simp only [string_mk_data, if_neg hidx, Option.map_some']
    rw [hquery, string_mk_data, jsParseIntDigits_ofDigits]
  · intro p s h1 h2
    unfold parseURL
    cases hm : matchPath p.data with
    | none => exact ⟨rfl, rfl⟩
    | some pr =>
      obtain ⟨seg, io⟩ := pr
      cases io with
      | none =>
        obtain ⟨hp, hnil, hns⟩ := matchPath_inv_one p.data seg hm
        exact absurd (⟨String.mk seg,
          fun hc => hnil (by simpa using congrArg String.data hc),
          fun hin => hns '/' hin rfl,
          String.ext (by simp [hp, String.data_append])⟩ : shapeOne p) h1
      | some ds =>
        obtain ⟨hp, hnil, hns, hdnil, hdig⟩ := matchPath_inv_two p.data seg ds hm
        exact absurd (⟨String.mk seg, String.mk ds,
          fun hc => hnil (by simpa using congrArg String.data hc),
          fun hin => hns '/' hin rfl,
          fun hc => hdnil (by simpa using congrArg String.data hc),
          fun d hd2 => hdig d hd2,
          String.ext (by
            simp [hp, String.data_append, imageSep, List.append_assoc])⟩ :
          shapeTwo p) h2
  · intro s
    exact ⟨rfl, rfl⟩
  · intro s ds hdne hdig
    have hdata : ("/index.html/image/" ++ ds).data =
        '/' :: ("index.html".data ++ (imageSep ++ ds.data)) := by
      simp [imageSep, String.data_append, List.append_assoc]
    unfold parseURL
    rw [hdata, matchPath_shape_two "index.html".data ds.data (by decide)
      (by decide) (data_ne_nil hdne) (fun d hd2 => hdig d hd2)]
    simp only [string_mk_data]
    rw [if_pos (by decide)]
    exact ⟨rfl, rfl⟩
  · intro p
    rw [parseURL_queryString]
    rfl
  · intro p q
    rw [parseURL_queryString, hquery, string_mk_data]

/-- Witness for C2 at concrete routes of both shapes. -/
theorem parseURL_spec_witness :
    parseURL "/demo" ("?" ++ "a=1") = ⟨some "demo", none, "a=1"⟩ ∧
    parseURL ("/" ++ "demo" ++ "/image/" ++ "12") ("?" ++ "a=1") =
      ⟨some "demo",
        some (Nat.ofDigits 10 (("12".data.map fun c => c.toNat - 48).reverse)),
        "a=1"⟩ :=
  ⟨parseURL_spec.1 "demo" "a=1" (by decide) (by decide) (by decide),
    parseURL_spec.2.1 "demo" "12" "a=1" (by decide) (by decide) (by decide)
      (by decide) (by decide)⟩
